import Mathlib

/-! Storage helpers over an object-storage SDK.

Shallow embedding of `storage/storage.go`. The vendor SDK, the local file
system and the `io` helpers are outside the repository, so every helper takes
them as a record `SDK σ` of state-passing operations on an arbitrary world
type `σ`. Each helper hands back how it ended, the world it leaves behind and
the list of events it produced, in program order: one `Event.call` per SDK,
file or `io` call (with the error that call returned) and one `Event.log` per
logger call.

The logger is logrus, imported as `log`, through its package-level functions.
`log.Fatalf` and `log.Fatal` write the entry at fatal severity and then call
the exit function of the standard logger with code 1, which ends the process:
nothing in the source replaces that function. A helper that reaches such a
call therefore ends as `Completion.exited`; the statements written after the
call do not run and a pending deferred call does not run either.

Loops are bounded by a fuel argument that counts the calls to `Next` still
allowed. A listing helper hands back `some` ending once its loop is over and
`none` while it is still in the loop when the fuel runs out; the world and the
events are, in both cases, those reached so far.
-/

namespace Storage

/-- Error values the helpers compare against or pass through. -/
inductive Err where
  | bucketNotExist
  | objectNotExist
  | done
  | other (code : Nat)
  deriving DecidableEq, Repr

abbrev Byte : Type := Fin 256

/-- Result of a call that yields a value or an error. -/
inductive Outcome (α : Type) where
  | ok (v : α)
  | fail (e : Err)
  deriving DecidableEq, Repr

/-- Go slice value; `nil` is the nil slice, `of l` a non-nil slice. -/
inductive GoSlice (α : Type) where
  | nil
  | of (l : List α)
  deriving DecidableEq, Repr

/-- Elements of a slice; the nil slice has none. -/
def GoSlice.elems {α : Type} : GoSlice α → List α
  | .nil => []
  | .of l => l

/-- Go builtin `append(s, a)`. -/
def goAppend {α : Type} (s : GoSlice α) (a : α) : GoSlice α :=
  match s with
  | .nil => .of [a]
  | .of l => .of (l ++ [a])

structure BucketAttrs where
  Name : String
  Location : String
  deriving DecidableEq, Repr

structure ObjectAttrs where
  Bucket : String
  Name : String
  Size : Nat
  deriving DecidableEq, Repr

inductive Level where
  | debug
  | warn
  | fatal
  deriving DecidableEq, Repr

inductive LogArg where
  | str (s : String)
  | err (e : Option Err)
  deriving DecidableEq, Repr

/-- Calls a helper makes on the SDK, the file system and `io`. -/
inductive Call where
  | bucketAttrs (bucket : String)
  | bucketCreate (bucket projectId : String) (attrs : Option BucketAttrs)
  | bucketDelete (bucket : String)
  | buckets (projectId : String)
  | bucketsNext
  | objects (bucket : String)
  | objectsNext
  | newWriter (bucket key : String)
  | osReadFile (path : String)
  | ioCopy (body : List Byte)
  | writerClose
  | newReader (bucket object : String)
  | ioReadAll
  | readerClose
  deriving DecidableEq, Repr

inductive Event where
  | call (c : Call) (err : Option Err)
  | log (level : Level) (format : String) (args : List LogArg)
  deriving DecidableEq, Repr

/-- Operations of the environment, each a function of the world. -/
structure SDK (σ : Type) where
  bucketAttrs : String → σ → Option Err × σ
  bucketCreate : String → String → Option BucketAttrs → σ → Option Err × σ
  bucketDelete : String → σ → Option Err × σ
  buckets : String → σ → σ
  bucketsNext : σ → Outcome BucketAttrs × σ
  objects : String → σ → σ
  objectsNext : σ → Outcome ObjectAttrs × σ
  newWriter : String → String → σ → σ
  osReadFile : String → σ → Outcome (List Byte) × σ
  ioCopy : List Byte → σ → Option Err × σ
  writerClose : σ → Option Err × σ
  newReader : String → String → σ → Option Err × σ
  ioReadAll : σ → Outcome (List Byte) × σ
  readerClose : σ → Option Err × σ

/-- How a call of a helper ends: it returns a value to its caller, or the
process ends with an exit code before the helper returns. -/
inductive Completion (α : Type) where
  | returned (v : α)
  | exited (code : Nat)
  deriving DecidableEq, Repr

/-- Exit code the logger passes to its exit function after a fatal entry. -/
def fatalExitCode : Nat := 1

/-- What a helper hands back: how it ended, the world and the events. -/
structure Ret (α σ : Type) where
  val : α
  world : σ
  events : List Event

/-- CreateBucket, storage.go lines 22-41. -/
def CreateBucket {σ : Type} (sdk : SDK σ) (projectId bucketName : String)
    (bktAttrs : Option BucketAttrs) (w : σ) : Ret (Completion (Option Err)) σ :=
  match sdk.bucketAttrs bucketName w with
  | (some e, w1) =>
    if e = Err.bucketNotExist then
      match sdk.bucketCreate bucketName projectId bktAttrs w1 with
      | (some e2, w2) =>
        ⟨.exited fatalExitCode, w2,
          [Event.call (.bucketAttrs bucketName) (some e),
           Event.log .debug "Creating bucket %s" [.str bucketName],
           Event.call (.bucketCreate bucketName projectId bktAttrs) (some e2),
           Event.log .fatal "Error while creating bucket. Error is %v" [.err (some e2)]]⟩
      | (none, w2) =>
        ⟨.returned none, w2,
          [Event.call (.bucketAttrs bucketName) (some e),
           Event.log .debug "Creating bucket %s" [.str bucketName],
           Event.call (.bucketCreate bucketName projectId bktAttrs) none]⟩
    else
      ⟨.returned (some e), w1, [Event.call (.bucketAttrs bucketName) (some e)]⟩
  | (none, w1) => ⟨.returned none, w1, [Event.call (.bucketAttrs bucketName) none]⟩

/-- Loop of ListBuckets, storage.go lines 49-61. -/
def ListBucketsLoop {σ : Type} (sdk : SDK σ) :
    Nat → σ → GoSlice String → List Event →
      Ret (Option (Completion (GoSlice String × Option Err))) σ
  | 0, w, _, evs => ⟨none, w, evs⟩
  | fuel + 1, w, bucketNames, evs =>
    match sdk.bucketsNext w with
    | (.fail e, w1) =>
      if e = Err.done then
        ⟨some (.returned (bucketNames, none)), w1, evs ++ [Event.call .bucketsNext (some e)]⟩
      else
        ⟨some (.exited fatalExitCode), w1,
          evs ++ [Event.call .bucketsNext (some e),
                  Event.log .fatal "Error while iterating thorugh buckets. Error is %v\n"
                    [.err (some e)]]⟩
    | (.ok bucket, w1) =>
      ListBucketsLoop sdk fuel w1 (goAppend bucketNames bucket.Name)
        (evs ++ [Event.call .bucketsNext none])

/-- ListBuckets, storage.go lines 43-63. -/
def ListBuckets {σ : Type} (sdk : SDK σ) (fuel : Nat) (projectId : String) (w : σ) :
    Ret (Option (Completion (GoSlice String × Option Err))) σ :=
  ListBucketsLoop sdk fuel (sdk.buckets projectId w) .nil [Event.call (.buckets projectId) none]

/-- DeleteBucket, storage.go lines 65-83. -/
def DeleteBucket {σ : Type} (sdk : SDK σ) (bucketName : String) (w : σ) :
    Ret (Completion (Option Err)) σ :=
  match sdk.bucketAttrs bucketName w with
  | (some e, w1) =>
    if e = Err.bucketNotExist then
      ⟨.exited fatalExitCode, w1,
        [Event.call (.bucketAttrs bucketName) (some e),
         Event.log .fatal "Bucket does not exist. Error is %v" [.err (some e)]]⟩
    else
      ⟨.returned (some e), w1, [Event.call (.bucketAttrs bucketName) (some e)]⟩
  | (none, w1) =>
    match sdk.bucketDelete bucketName w1 with
    | (some e2, w2) =>
      ⟨.returned (some e2), w2,
        [Event.call (.bucketAttrs bucketName) none,
         Event.log .warn "Deleting bucket %s" [.str bucketName],
         Event.call (.bucketDelete bucketName) (some e2)]⟩
    | (none, w2) =>
      ⟨.returned none, w2,
        [Event.call (.bucketAttrs bucketName) none,
         Event.log .warn "Deleting bucket %s" [.str bucketName],
         Event.call (.bucketDelete bucketName) none]⟩

/-- UploadLocalFile, storage.go lines 85-121. -/
def UploadLocalFile {σ : Type} (sdk : SDK σ) (bucketName localFilePath KeyName : String)
    (w : σ) : Ret (Completion (Option Err)) σ :=
  match sdk.bucketAttrs bucketName w with
  | (some e, w1) =>
    if e = Err.bucketNotExist then
      ⟨.exited fatalExitCode, w1,
        [Event.call (.bucketAttrs bucketName) (some e),
         Event.log .fatal "The bucket %s does not exist\n" [.str bucketName]]⟩
    else
      ⟨.exited fatalExitCode, w1,
        [Event.call (.bucketAttrs bucketName) (some e),
         Event.log .fatal "Error while loading bucket %s\n" [.str bucketName]]⟩
  | (none, w1) =>
    match sdk.osReadFile localFilePath (sdk.newWriter bucketName KeyName w1) with
    | (.fail e, w3) =>
      ⟨.exited fatalExitCode, w3,
        [Event.call (.bucketAttrs bucketName) none,
         Event.call (.newWriter bucketName KeyName) none,
         Event.call (.osReadFile localFilePath) (some e),
         Event.log .fatal "Error while opening file %s. Error is : %v\n"
           [.str localFilePath, .err (some e)]]⟩
    | (.ok body, w3) =>
      match sdk.ioCopy body w3 with
      | (some e, w4) =>
        ⟨.exited fatalExitCode, w4,
          [Event.call (.bucketAttrs bucketName) none,
           Event.call (.newWriter bucketName KeyName) none,
           Event.call (.osReadFile localFilePath) none,
           Event.call (.ioCopy body) (some e),
           Event.log .fatal "Error while copying data to object. Error is %v\n"
             [.err (some e)]]⟩
      | (none, w4) =>
        match sdk.writerClose w4 with
        | (some e, w5) =>
          ⟨.exited fatalExitCode, w5,
            [Event.call (.bucketAttrs bucketName) none,
             Event.call (.newWriter bucketName KeyName) none,
             Event.call (.osReadFile localFilePath) none,
             Event.call (.ioCopy body) none,
             Event.call .writerClose (some e),
             Event.log .fatal "Error while writing data to file. Error is %v\n"
               [.err (some e)]]⟩
        | (none, w5) =>
          ⟨.returned none, w5,
            [Event.call (.bucketAttrs bucketName) none,
             Event.call (.newWriter bucketName KeyName) none,
             Event.call (.osReadFile localFilePath) none,
             Event.call (.ioCopy body) none,
             Event.call .writerClose none]⟩

/-- ReadFile, storage.go lines 123-141. The deferred `rc.Close()` runs when the
function returns at line 140 and its error result is dropped; it does not run
when the process ends at line 137. `log.Fatal` takes no format string,
recorded as the empty format. -/
def ReadFile {σ : Type} (sdk : SDK σ) (bucketName objectName : String) (w : σ) :
    Ret (Completion (GoSlice Byte × Option Err)) σ :=
  match sdk.newReader bucketName objectName w with
  | (some e, w1) =>
    if e = Err.objectNotExist then
      ⟨.exited fatalExitCode, w1,
        [Event.call (.newReader bucketName objectName) (some e),
         Event.log .fatal "Object %s does not exist" [.str objectName]]⟩
    else
      ⟨.exited fatalExitCode, w1,
        [Event.call (.newReader bucketName objectName) (some e),
         Event.log .fatal "" [.err (some e)]]⟩
  | (none, w1) =>
    match sdk.ioReadAll w1 with
    | (.fail e, w2) =>
      ⟨.exited fatalExitCode, w2,
        [Event.call (.newReader bucketName objectName) none,
         Event.call .ioReadAll (some e),
         Event.log .fatal "" [.err (some e)]]⟩
    | (.ok body, w2) =>
      ⟨.returned (.of body, none), (sdk.readerClose w2).2,
        [Event.call (.newReader bucketName objectName) none,
         Event.call .ioReadAll none,
         Event.call .readerClose (sdk.readerClose w2).1]⟩

/-- Loop of listObjects, storage.go lines 146-156. -/
def listObjectsLoop {σ : Type} (sdk : SDK σ) (bucketName : String) :
    Nat → σ → GoSlice String → List Event →
      Ret (Option (Completion (GoSlice String × Option Err))) σ
  | 0, w, _, evs => ⟨none, w, evs⟩
  | fuel + 1, w, objectNames, evs =>
    match sdk.objectsNext w with
    | (.fail e, w1) =>
      if e = Err.done then
        ⟨some (.returned (objectNames, none)), w1, evs ++ [Event.call .objectsNext (some e)]⟩
      else
        ⟨some (.exited fatalExitCode), w1,
          evs ++ [Event.call .objectsNext (some e),
                  Event.log .fatal "Error reading objects from %s. Error is %v\n"
                    [.str bucketName, .err (some e)]]⟩
    | (.ok objAttr, w1) =>
      listObjectsLoop sdk bucketName fuel w1 (goAppend objectNames objAttr.Name)
        (evs ++ [Event.call .objectsNext none])

/-- The function listObjects, storage.go lines 143-158. -/
def listObjects {σ : Type} (sdk : SDK σ) (fuel : Nat) (bucketName : String) (w : σ) :
    Ret (Option (Completion (GoSlice String × Option Err))) σ :=
  listObjectsLoop sdk bucketName fuel (sdk.objects bucketName w) .nil
    [Event.call (.objects bucketName) none]

/-! ## Vocabulary of the properties -/

/-- The iterator started in world `w` yields exactly `items`, in order, and
then the error `e` (`Err.done` for a regular end). -/
def yieldsThen {σ α : Type} (next : σ → Outcome α × σ) : σ → List α → Err → Prop
  | w, [], e => (next w).1 = .fail e
  | w, a :: rest, e => (next w).1 = .ok a ∧ yieldsThen next (next w).2 rest e

instance yieldsThen.decidable {σ α : Type} [DecidableEq α] (next : σ → Outcome α × σ) :
    ∀ (w : σ) (items : List α) (e : Err), Decidable (yieldsThen next w items e)
  | w, [], e => by unfold yieldsThen; exact inferInstance
  | w, a :: rest, e => by
    unfold yieldsThen
    exact @instDecidableAnd _ _ _ (yieldsThen.decidable next (next w).2 rest e)

/-- World reached after `n` calls of `next`. -/
def afterNext {σ α : Type} (next : σ → Outcome α × σ) : Nat → σ → σ
  | 0, w => w
  | n + 1, w => afterNext next n (next w).2

/-- Calls among the events, in order, without the errors they returned. -/
def callsOf : List Event → List Call
  | [] => []
  | .call c _ :: rest => c :: callsOf rest
  | .log _ _ _ :: rest => callsOf rest

/-- Whether some entry was logged at fatal severity. -/
def loggedFatal : List Event → Bool
  | [] => false
  | .log .fatal _ _ :: _ => true
  | _ :: rest => loggedFatal rest

/-- One call of a helper with its arguments. -/
inductive Invocation where
  | createBucket (projectId bucketName : String) (bktAttrs : Option BucketAttrs)
  | listBuckets (fuel : Nat) (projectId : String)
  | deleteBucket (bucketName : String)
  | uploadLocalFile (bucketName localFilePath KeyName : String)
  | readFile (bucketName objectName : String)
  | listObjects (fuel : Nat) (bucketName : String)
  deriving DecidableEq, Repr

/-- Ending of a helper reduced to the error result it returned, if it returned. -/
def ending {α : Type} (err : α → Option Err) : Completion α → Completion (Option Err)
  | .returned v => .returned (err v)
  | .exited code => .exited code

/-- Ending and events of a helper call. -/
def Invocation.run {σ : Type} (sdk : SDK σ) (w : σ) :
    Invocation → Option (Completion (Option Err)) × List Event
  | .createBucket projectId bucketName bktAttrs =>
    (some (CreateBucket sdk projectId bucketName bktAttrs w).val,
     (CreateBucket sdk projectId bucketName bktAttrs w).events)
  | .listBuckets fuel projectId =>
    ((ListBuckets sdk fuel projectId w).val.map (ending (·.2)),
     (ListBuckets sdk fuel projectId w).events)
  | .deleteBucket bucketName =>
    (some (DeleteBucket sdk bucketName w).val, (DeleteBucket sdk bucketName w).events)
  | .uploadLocalFile bucketName localFilePath KeyName =>
    (some (UploadLocalFile sdk bucketName localFilePath KeyName w).val,
     (UploadLocalFile sdk bucketName localFilePath KeyName w).events)
  | .readFile bucketName objectName =>
    (some (ending (·.2) (ReadFile sdk bucketName objectName w).val),
     (ReadFile sdk bucketName objectName w).events)
  | .listObjects fuel bucketName =>
    ((Storage.listObjects sdk fuel bucketName w).val.map (ending (·.2)),
     (Storage.listObjects sdk fuel bucketName w).events)

/-- Error results a helper does not treat as a failure: the not-found answer
of the probe of CreateBucket, `Done` from an iterator, and whatever the Close
of the reader, which is deferred, returns. -/
def Invocation.tolerates : Invocation → Call → Err → Bool
  | .createBucket _ _ _, .bucketAttrs _, .bucketNotExist => true
  | _, .bucketsNext, .done => true
  | _, .objectsNext, .done => true
  | _, .readerClose, _ => true
  | _, _, _ => false

/-- Failure paths on which the source returns the error without a fatal entry:
a probe error in CreateBucket (lines 37-39), a probe error other than
not-found in DeleteBucket (lines 74-76) and a delete error (lines 79-81). -/
def Invocation.silent : Invocation → Call → Err → Bool
  | .createBucket _ _ _, .bucketAttrs _, _ => true
  | .deleteBucket _, .bucketAttrs _, e => decide (e ≠ Err.bucketNotExist)
  | .deleteBucket _, .bucketDelete _, _ => true
  | _, _, _ => false

/-- Abstract reading of a world as an object store with a local disk. -/
structure StoreView (σ : Type) where
  stored : σ → String → String → Option (List Byte)
  pending : σ → Option (String × String × List Byte)
  fileContent : σ → String → Option (List Byte)

/-- Contract of a store whose writer buffers until Close, whose Close commits
the buffer under the bucket and key of the writer, and whose reader returns
the committed bytes of an object that is there. -/
structure ObjectStore {σ : Type} (sdk : SDK σ) (view : StoreView σ) : Prop where
  attrs_files : ∀ b w, view.fileContent (sdk.bucketAttrs b w).2 = view.fileContent w
  newWriter_files : ∀ b k w, view.fileContent (sdk.newWriter b k w) = view.fileContent w
  newWriter_pending : ∀ b k w, view.pending (sdk.newWriter b k w) = some (b, k, [])
  osReadFile_ok : ∀ p w body, (sdk.osReadFile p w).1 = .ok body →
    view.fileContent w p = some body
  osReadFile_pending : ∀ p w, view.pending (sdk.osReadFile p w).2 = view.pending w
  ioCopy_pending : ∀ body w b k buf, view.pending w = some (b, k, buf) →
    (sdk.ioCopy body w).1 = none → view.pending (sdk.ioCopy body w).2 = some (b, k, buf ++ body)
  writerClose_stored : ∀ w b k buf, view.pending w = some (b, k, buf) →
    (sdk.writerClose w).1 = none → view.stored (sdk.writerClose w).2 b k = some buf
  newReader_ok : ∀ w b k buf, view.stored w b k = some buf →
    (sdk.newReader b k w).1 = none ∧ (sdk.ioReadAll (sdk.newReader b k w).2).1 = .ok buf

/-! ## A scripted environment -/

/-- Canned replies: every call answers from the script; only `Next` consumes
its list, and once a list is used up its end error is returned by every call. -/
structure Script where
  attrs : Option Err
  create : Option Err
  delete : Option Err
  bucketItems : List (Outcome BucketAttrs)
  bucketsEnd : Err
  objectItems : List (Outcome ObjectAttrs)
  objectsEnd : Err
  file : Outcome (List Byte)
  copy : Option Err
  close : Option Err
  reader : Option Err
  readAll : Outcome (List Byte)
  readerClose : Option Err
  deriving DecidableEq, Repr

def scriptSDK : SDK Script where
  bucketAttrs := fun _ s => (s.attrs, s)
  bucketCreate := fun _ _ _ s => (s.create, s)
  bucketDelete := fun _ s => (s.delete, s)
  buckets := fun _ s => s
  bucketsNext := fun s =>
    match s.bucketItems with
    | [] => (.fail s.bucketsEnd, s)
    | r :: rest => (r, { s with bucketItems := rest })
  objects := fun _ s => s
  objectsNext := fun s =>
    match s.objectItems with
    | [] => (.fail s.objectsEnd, s)
    | r :: rest => (r, { s with objectItems := rest })
  newWriter := fun _ _ s => s
  osReadFile := fun _ s => (s.file, s)
  ioCopy := fun _ s => (s.copy, s)
  writerClose := fun s => (s.close, s)
  newReader := fun _ _ s => (s.reader, s)
  ioReadAll := fun s => (s.readAll, s)
  readerClose := fun s => (s.readerClose, s)

/-- Script in which every call succeeds and both listings are empty. -/
def quiet : Script where
  attrs := none
  create := none
  delete := none
  bucketItems := []
  bucketsEnd := .done
  objectItems := []
  objectsEnd := .done
  file := .ok [1, 2, 3]
  copy := none
  close := none
  reader := none
  readAll := .ok [1, 2, 3]
  readerClose := none

/-! ## An in-memory object store -/

structure MemWorld where
  buckets : List BucketAttrs
  objects : List ((String × String) × List Byte)
  files : List (String × List Byte)
  writer : Option (String × String × List Byte)
  reader : Option (List Byte)
  bucketIter : List BucketAttrs
  objectIter : Outcome (List ObjectAttrs)
  deriving DecidableEq, Repr

def MemWorld.hasBucket (w : MemWorld) (b : String) : Bool :=
  w.buckets.any fun a => a.Name == b

def memSDK : SDK MemWorld where
  bucketAttrs := fun b w => (if w.hasBucket b then none else some .bucketNotExist, w)
  bucketCreate := fun b _ attrs w =>
    if w.hasBucket b then (some (.other 409), w)
    else (none, { w with buckets := w.buckets ++ [⟨b, (attrs.map (·.Location)).getD "US"⟩] })
  bucketDelete := fun b w =>
    if w.hasBucket b then
      if w.objects.any (fun o => o.1.1 == b) then (some (.other 409), w)
      else (none, { w with buckets := w.buckets.filter fun a => a.Name != b })
    else (some .bucketNotExist, w)
  buckets := fun _ w => { w with bucketIter := w.buckets }
  bucketsNext := fun w =>
    match w.bucketIter with
    | [] => (.fail .done, w)
    | a :: rest => (.ok a, { w with bucketIter := rest })
  objects := fun b w =>
    { w with objectIter :=
        if w.hasBucket b then
          .ok ((w.objects.filter fun o => o.1.1 == b).map fun o => ⟨b, o.1.2, o.2.length⟩)
        else .fail .bucketNotExist }
  objectsNext := fun w =>
    match w.objectIter with
    | .fail e => (.fail e, w)
    | .ok [] => (.fail .done, w)
    | .ok (a :: rest) => (.ok a, { w with objectIter := .ok rest })
  newWriter := fun b k w => { w with writer := some (b, k, []) }
  osReadFile := fun p w =>
    match w.files.lookup p with
    | some body => (.ok body, w)
    | none => (.fail (.other 2), w)
  ioCopy := fun body w =>
    match w.writer with
    | some (b, k, buf) => (none, { w with writer := some (b, k, buf ++ body) })
    | none => (some (.other 9), w)
  writerClose := fun w =>
    match w.writer with
    | some (b, k, buf) =>
      if w.hasBucket b then
        (none, { w with writer := none,
                        objects := ((b, k), buf) :: w.objects.filter fun o => o.1 != (b, k) })
      else (some .bucketNotExist, { w with writer := none })
    | none => (some (.other 9), w)
  newReader := fun b k w =>
    if w.hasBucket b then
      match w.objects.lookup (b, k) with
      | some buf => (none, { w with reader := some buf })
      | none => (some .objectNotExist, w)
    else (some .bucketNotExist, w)
  ioReadAll := fun w =>
    match w.reader with
    | some buf => (.ok buf, w)
    | none => (.fail (.other 9), w)
  readerClose := fun w => (none, { w with reader := none })

def memView : StoreView MemWorld where
  stored := fun w b k => if w.hasBucket b then w.objects.lookup (b, k) else none
  pending := fun w => w.writer
  fileContent := fun w p => w.files.lookup p

/-- One bucket `photos`, no object, one local file `cat.jpg`. -/
def demo : MemWorld where
  buckets := [⟨"photos", "EU"⟩]
  objects := []
  files := [("cat.jpg", [7, 0, 255])]
  writer := none
  reader := none
  bucketIter := []
  objectIter := .ok []

/-- Script whose two iterators yield nothing and fail with the same error on
every call of `Next`. -/
def stuck : Script := { quiet with bucketsEnd := .other 5, objectsEnd := .other 5 }

/-- Events of the last call of `Next` in ListBuckets: the call, and the fatal
entry of line 56 when the error is not `Done`. -/
def lastNextEvents (e : Err) : List Event :=
  if e = Err.done then [Event.call .bucketsNext (some e)]
  else [Event.call .bucketsNext (some e),
        Event.log .fatal "Error while iterating thorugh buckets. Error is %v\n" [.err (some e)]]

/-- Two buckets, two objects in `photos`, one local file. -/
def shelf : MemWorld where
  buckets := [⟨"photos", "EU"⟩, ⟨"logs", "US"⟩]
  objects := [(("photos", "cat"), [7, 0, 255]), (("photos", "dog"), [])]
  files := [("cat.jpg", [7, 0, 255])]
  writer := none
  reader := none
  bucketIter := []
  objectIter := .ok []

/-- Script whose bucket iterator yields two buckets and then fails. -/
def broken : Script :=
  { quiet with
    bucketItems := [.ok ⟨"photos", "EU"⟩, .ok ⟨"logs", "US"⟩]
    bucketsEnd := .other 5 }

/-- Script whose probe is refused with an error other than not-found. -/
def denied : Script := { quiet with attrs := some (.other 403) }

/-- Script whose delete request fails. -/
def refused : Script := { quiet with delete := some (.other 409) }

/-- Script whose reader delivers the bytes and then fails to close. -/
def leaky : Script := { quiet with readerClose := some (.other 9) }

/-- Script whose probe finds no bucket and whose create request is refused. -/
def clash : Script := { quiet with attrs := some .bucketNotExist, create := some (.other 409) }

/-- Script whose reader opens and then fails while being read. -/
def torn : Script := { quiet with readAll := .fail (.other 7) }

/-! ## Guards of the bucket helpers -/

/-- C1. When the probe of CreateBucket succeeds (the bucket is there), CreateBucket
returns no error, the probe is the only call it makes (no create request), and the
world is the one the probe left. -/
theorem CreateBucket_existing_noop {σ : Type} (sdk : SDK σ) (projectId bucketName : String)
    (bktAttrs : Option BucketAttrs) (w : σ)
    (hprobe : (sdk.bucketAttrs bucketName w).1 = none) :
    (CreateBucket sdk projectId bucketName bktAttrs w).val = Completion.returned none ∧
    (CreateBucket sdk projectId bucketName bktAttrs w).events
      = [Event.call (.bucketAttrs bucketName) none] ∧
    callsOf (CreateBucket sdk projectId bucketName bktAttrs w).events
      = [Call.bucketAttrs bucketName] ∧
    (CreateBucket sdk projectId bucketName bktAttrs w).world = (sdk.bucketAttrs bucketName w).2 := by
  unfold CreateBucket
  generalize sdk.bucketAttrs bucketName w = p at hprobe ⊢
  obtain ⟨o, w1⟩ := p
  simp only at hprobe
  subst hprobe
  simp [callsOf]

theorem CreateBucket_existing_noop_witness :
    (memSDK.bucketAttrs "photos" demo).1 = none ∧
    (CreateBucket memSDK "proj" "photos" none demo).val = Completion.returned none ∧
    (CreateBucket memSDK "proj" "photos" none demo).events
      = [Event.call (.bucketAttrs "photos") none] ∧
    callsOf (CreateBucket memSDK "proj" "photos" none demo).events
      = [Call.bucketAttrs "photos"] ∧
    (CreateBucket memSDK "proj" "photos" none demo).world = (memSDK.bucketAttrs "photos" demo).2 :=
  ⟨by decide, CreateBucket_existing_noop memSDK "proj" "photos" none demo (by decide)⟩

/-- C2. At inputs whose target is not there the helpers do not return the
not-found error: DeleteBucket and UploadLocalFile on a bucket that the probe
reports missing, and ReadFile on an object that the reader reports missing,
log at fatal severity and the process ends with exit code 1 (storage.go
lines 71, 90 and 127); the `return` written after the logger call is not
reached. -/
theorem not_found_ends_process :
    ((memSDK.bucketAttrs "archive" demo).1 = some Err.bucketNotExist ∧
      (DeleteBucket memSDK "archive" demo).val = Completion.exited 1 ∧
      loggedFatal (DeleteBucket memSDK "archive" demo).events = true ∧
      callsOf (DeleteBucket memSDK "archive" demo).events = [Call.bucketAttrs "archive"] ∧
      (UploadLocalFile memSDK "archive" "cat.jpg" "cat" demo).val = Completion.exited 1 ∧
      loggedFatal (UploadLocalFile memSDK "archive" "cat.jpg" "cat" demo).events = true ∧
      callsOf (UploadLocalFile memSDK "archive" "cat.jpg" "cat" demo).events
        = [Call.bucketAttrs "archive"]) ∧
    ((memSDK.newReader "photos" "dog" demo).1 = some Err.objectNotExist ∧
      (ReadFile memSDK "photos" "dog" demo).val = Completion.exited 1 ∧
      loggedFatal (ReadFile memSDK "photos" "dog" demo).events = true ∧
      callsOf (ReadFile memSDK "photos" "dog" demo).events
        = [Call.newReader "photos" "dog"]) := by
  decide

/-- C7. At an input where the probe reports ErrBucketNotExist and the create
request fails, CreateBucket makes the probe and then one create request with
the arguments of the caller, logs at fatal severity and the process ends with
exit code 1 (storage.go line 32): the error of the create request is not
returned. Where the create request succeeds CreateBucket returns nil after the
same two calls. -/
theorem CreateBucket_create_error_ends_process :
    ((scriptSDK.bucketAttrs "archive" clash).1 = some Err.bucketNotExist ∧
      (scriptSDK.bucketCreate "archive" "proj" (some ⟨"archive", "EU"⟩)
        (scriptSDK.bucketAttrs "archive" clash).2).1 = some (Err.other 409) ∧
      (CreateBucket scriptSDK "proj" "archive" (some ⟨"archive", "EU"⟩) clash).val
        = Completion.exited 1 ∧
      loggedFatal (CreateBucket scriptSDK "proj" "archive" (some ⟨"archive", "EU"⟩) clash).events
        = true ∧
      callsOf (CreateBucket scriptSDK "proj" "archive" (some ⟨"archive", "EU"⟩) clash).events
        = [Call.bucketAttrs "archive",
           Call.bucketCreate "archive" "proj" (some ⟨"archive", "EU"⟩)]) ∧
    ((memSDK.bucketAttrs "archive" demo).1 = some Err.bucketNotExist ∧
      (CreateBucket memSDK "proj" "archive" (some ⟨"archive", "EU"⟩) demo).val
        = Completion.returned none ∧
      callsOf (CreateBucket memSDK "proj" "archive" (some ⟨"archive", "EU"⟩) demo).events
        = [Call.bucketAttrs "archive",
           Call.bucketCreate "archive" "proj" (some ⟨"archive", "EU"⟩)]) := by
  decide

/-- C9. A failed guard leaves the store alone. If the probe returns any error,
DeleteBucket and UploadLocalFile make no call besides the probe; if the probe of
CreateBucket returns an error other than ErrBucketNotExist, CreateBucket makes no
call besides the probe; and if UploadLocalFile cannot read the local file, its
calls are the probe, the construction of the writer and the file read: nothing
is copied to the writer and the writer is not closed. In each case the world is
the one left by the last of these calls. -/
theorem failed_guard_frame {σ : Type} (sdk : SDK σ)
    (projectId bucketName localFilePath KeyName : String) (bktAttrs : Option BucketAttrs)
    (w : σ) :
    (∀ e, (sdk.bucketAttrs bucketName w).1 = some e →
      callsOf (DeleteBucket sdk bucketName w).events = [Call.bucketAttrs bucketName] ∧
      (DeleteBucket sdk bucketName w).world = (sdk.bucketAttrs bucketName w).2 ∧
      callsOf (UploadLocalFile sdk bucketName localFilePath KeyName w).events
        = [Call.bucketAttrs bucketName] ∧
      (UploadLocalFile sdk bucketName localFilePath KeyName w).world
        = (sdk.bucketAttrs bucketName w).2) ∧
    (∀ e, (sdk.bucketAttrs bucketName w).1 = some e → e ≠ Err.bucketNotExist →
      callsOf (CreateBucket sdk projectId bucketName bktAttrs w).events
        = [Call.bucketAttrs bucketName] ∧
      (CreateBucket sdk projectId bucketName bktAttrs w).world
        = (sdk.bucketAttrs bucketName w).2) ∧
    (∀ e, (sdk.bucketAttrs bucketName w).1 = none →
      (sdk.osReadFile localFilePath
        (sdk.newWriter bucketName KeyName (sdk.bucketAttrs bucketName w).2)).1 = Outcome.fail e →
      callsOf (UploadLocalFile sdk bucketName localFilePath KeyName w).events
        = [Call.bucketAttrs bucketName, Call.newWriter bucketName KeyName,
           Call.osReadFile localFilePath] ∧
      (UploadLocalFile sdk bucketName localFilePath KeyName w).world
        = (sdk.osReadFile localFilePath
            (sdk.newWriter bucketName KeyName (sdk.bucketAttrs bucketName w).2)).2) := by
  refine ⟨fun e hprobe => ?_, fun e hprobe hne => ?_, fun e hprobe hfile => ?_⟩
  · unfold DeleteBucket UploadLocalFile
    generalize sdk.bucketAttrs bucketName w = p at hprobe ⊢
    obtain ⟨o, w1⟩ := p
    simp only at hprobe
    subst hprobe
    by_cases hx : e = Err.bucketNotExist <;> simp [hx, callsOf]
  · unfold CreateBucket
    generalize sdk.bucketAttrs bucketName w = p at hprobe ⊢
    obtain ⟨o, w1⟩ := p
    simp only at hprobe
    subst hprobe
    simp [hne, callsOf]
  · unfold UploadLocalFile
    generalize sdk.bucketAttrs bucketName w = p at hprobe hfile ⊢
    obtain ⟨o, w1⟩ := p
    simp only at hprobe hfile
    subst hprobe
    simp only
    generalize sdk.osReadFile localFilePath (sdk.newWriter bucketName KeyName w1) = q at hfile ⊢
    obtain ⟨o2, w3⟩ := q
    simp only at hfile
    subst hfile
    simp [callsOf]

theorem failed_guard_frame_witness :
    (((scriptSDK.bucketAttrs "photos" { quiet with attrs := some (.other 403) }).1
        = some (Err.other 403) ∧
      callsOf (DeleteBucket scriptSDK "photos" { quiet with attrs := some (.other 403) }).events
        = [Call.bucketAttrs "photos"] ∧
      (DeleteBucket scriptSDK "photos" { quiet with attrs := some (.other 403) }).world
        = (scriptSDK.bucketAttrs "photos" { quiet with attrs := some (.other 403) }).2 ∧
      callsOf (UploadLocalFile scriptSDK "photos" "cat.jpg" "cat"
          { quiet with attrs := some (.other 403) }).events = [Call.bucketAttrs "photos"] ∧
      (UploadLocalFile scriptSDK "photos" "cat.jpg" "cat"
          { quiet with attrs := some (.other 403) }).world
        = (scriptSDK.bucketAttrs "photos" { quiet with attrs := some (.other 403) }).2) ∧
     (Err.other 403 ≠ Err.bucketNotExist ∧
      callsOf (CreateBucket scriptSDK "proj" "photos" none
          { quiet with attrs := some (.other 403) }).events = [Call.bucketAttrs "photos"] ∧
      (CreateBucket scriptSDK "proj" "photos" none
          { quiet with attrs := some (.other 403) }).world
        = (scriptSDK.bucketAttrs "photos" { quiet with attrs := some (.other 403) }).2)) ∧
    ((memSDK.bucketAttrs "photos" demo).1 = none ∧
     (memSDK.osReadFile "dog.jpg"
        (memSDK.newWriter "photos" "dog" (memSDK.bucketAttrs "photos" demo).2)).1
       = Outcome.fail (Err.other 2) ∧
     callsOf (UploadLocalFile memSDK "photos" "dog.jpg" "dog" demo).events
       = [Call.bucketAttrs "photos", Call.newWriter "photos" "dog", Call.osReadFile "dog.jpg"] ∧
     (UploadLocalFile memSDK "photos" "dog.jpg" "dog" demo).world
       = (memSDK.osReadFile "dog.jpg"
           (memSDK.newWriter "photos" "dog" (memSDK.bucketAttrs "photos" demo).2)).2) :=
  ⟨⟨⟨by decide,
     (failed_guard_frame scriptSDK "proj" "photos" "cat.jpg" "cat" none
       { quiet with attrs := some (.other 403) }).1 (Err.other 403) (by decide)⟩,
    ⟨by decide,
     (failed_guard_frame scriptSDK "proj" "photos" "cat.jpg" "cat" none
       { quiet with attrs := some (.other 403) }).2.1 (Err.other 403) (by decide) (by decide)⟩⟩,
   ⟨by decide, by decide,
    (failed_guard_frame memSDK "proj" "photos" "dog.jpg" "dog" none demo).2.2 (Err.other 2)
      (by decide) (by decide)⟩⟩

/-! ## Listings -/

theorem goAppend_foldl_of {α : Type} (names l : List α) :
    names.foldl goAppend (GoSlice.of l) = GoSlice.of (l ++ names) := by
  induction names generalizing l with
  | nil => simp
  | cons a rest ih => simp [goAppend, ih]

theorem goAppend_foldl_nil {α : Type} (names : List α) (hne : names ≠ []) :
    names.foldl goAppend GoSlice.nil = GoSlice.of names := by
  cases names with
  | nil => exact absurd rfl hne
  | cons a rest => simp [goAppend, goAppend_foldl_of]

theorem goAppend_foldl_elems {α : Type} (names : List α) (s : GoSlice α) :
    (names.foldl goAppend s).elems = s.elems ++ names := by
  induction names generalizing s with
  | nil => simp
  | cons a rest ih =>
    rw [List.foldl_cons, ih]
    cases s <;> simp [goAppend, GoSlice.elems]

theorem callsOf_append (a b : List Event) : callsOf (a ++ b) = callsOf a ++ callsOf b := by
  induction a with
  | nil => rfl
  | cons x rest ih => cases x <;> simp [callsOf, ih]

theorem callsOf_replicate (n : Nat) (c : Call) (o : Option Err) :
    callsOf (List.replicate n (Event.call c o)) = List.replicate n c := by
  induction n with
  | zero => rfl
  | succ n ih => simp [List.replicate_succ, callsOf, ih]

theorem callsOf_lastNextEvents (e : Err) : callsOf (lastNextEvents e) = [Call.bucketsNext] := by
  unfold lastNextEvents
  split <;> rfl

/-- Run of the loop of ListBuckets on an iterator that yields `items` and then `e`. -/
theorem ListBucketsLoop_yields {σ : Type} (sdk : SDK σ) (items : List BucketAttrs) (e : Err) :
    ∀ (fuel : Nat) (w : σ) (names : GoSlice String) (evs : List Event),
      yieldsThen sdk.bucketsNext w items e → items.length < fuel →
      ListBucketsLoop sdk fuel w names evs =
        ⟨some (if e = Err.done then
                 Completion.returned ((items.map (·.Name)).foldl goAppend names, none)
               else Completion.exited fatalExitCode),
         afterNext sdk.bucketsNext (items.length + 1) w,
         evs ++ List.replicate items.length (Event.call .bucketsNext none)
           ++ lastNextEvents e⟩ := by
  induction items with
  | nil =>
    intro fuel w names evs hy hf
    obtain ⟨fuel, rfl⟩ : ∃ k, fuel = k + 1 := ⟨fuel - 1, by simp at hf; omega⟩
    simp only [yieldsThen] at hy
    simp only [ListBucketsLoop, afterNext, List.length_nil, List.map_nil, List.foldl_nil,
      List.replicate_zero, List.append_nil, Nat.zero_add, lastNextEvents]
    generalize sdk.bucketsNext w = p at hy ⊢
    obtain ⟨o, w1⟩ := p
    simp only at hy
    subst hy
    by_cases hd : e = Err.done <;> simp [hd]
  | cons a rest ih =>
    intro fuel w names evs hy hf
    obtain ⟨fuel, rfl⟩ : ∃ k, fuel = k + 1 := ⟨fuel - 1, by simp at hf; omega⟩
    simp only [yieldsThen] at hy
    obtain ⟨hhead, hrest⟩ := hy
    have hlen : rest.length < fuel := by simp at hf; omega
    have hrec := ih fuel (sdk.bucketsNext w).2 (goAppend names a.Name)
      (evs ++ [Event.call .bucketsNext none]) hrest hlen
    simp only [ListBucketsLoop, afterNext, List.length_cons, List.map_cons, List.foldl_cons,
      List.replicate_succ]
    generalize sdk.bucketsNext w = p at hhead hrec ⊢
    obtain ⟨o, w1⟩ := p
    simp only at hhead
    subst hhead
    simp only [hrec]
    simp [afterNext]

/-- Run of the loop of listObjects on an iterator that yields `items` and then `Done`. -/
theorem listObjectsLoop_yields_done {σ : Type} (sdk : SDK σ) (bucketName : String)
    (items : List ObjectAttrs) :
    ∀ (fuel : Nat) (w : σ) (names : GoSlice String) (evs : List Event),
      yieldsThen sdk.objectsNext w items Err.done → items.length < fuel →
      listObjectsLoop sdk bucketName fuel w names evs =
        ⟨some (Completion.returned ((items.map (·.Name)).foldl goAppend names, none)),
         afterNext sdk.objectsNext (items.length + 1) w,
         evs ++ List.replicate items.length (Event.call .objectsNext none)
           ++ [Event.call .objectsNext (some Err.done)]⟩ := by
  induction items with
  | nil =>
    intro fuel w names evs hy hf
    obtain ⟨fuel, rfl⟩ : ∃ k, fuel = k + 1 := ⟨fuel - 1, by simp at hf; omega⟩
    simp only [yieldsThen] at hy
    simp only [listObjectsLoop, afterNext, List.length_nil, List.map_nil, List.foldl_nil,
      List.replicate_zero, List.append_nil, Nat.zero_add]
    generalize sdk.objectsNext w = p at hy ⊢
    obtain ⟨o, w1⟩ := p
    simp only at hy
    subst hy
    simp
  | cons a rest ih =>
    intro fuel w names evs hy hf
    obtain ⟨fuel, rfl⟩ : ∃ k, fuel = k + 1 := ⟨fuel - 1, by simp at hf; omega⟩
    simp only [yieldsThen] at hy
    obtain ⟨hhead, hrest⟩ := hy
    have hlen : rest.length < fuel := by simp at hf; omega
    have hrec := ih fuel (sdk.objectsNext w).2 (goAppend names a.Name)
      (evs ++ [Event.call .objectsNext none]) hrest hlen
    simp only [listObjectsLoop, afterNext, List.length_cons, List.map_cons, List.foldl_cons,
      List.replicate_succ]
    generalize sdk.objectsNext w = p at hhead hrec ⊢
    obtain ⟨o, w1⟩ := p
    simp only at hhead
    subst hhead
    simp only [hrec]
    simp [afterNext]

/-- C4. On an iterator that yields n items and then Done, ListBuckets and
listObjects return (within n + 1 calls of Next) no error and a slice whose
elements are the names of the items, in the order yielded; for n = 0 the slice
is nil. -/
theorem listing_until_done {σ : Type} (sdk : SDK σ) (projectId bucketName : String) (w : σ) :
    (∀ (items : List BucketAttrs) (fuel : Nat),
      yieldsThen sdk.bucketsNext (sdk.buckets projectId w) items Err.done →
      items.length < fuel →
      ∃ names, (ListBuckets sdk fuel projectId w).val
          = some (Completion.returned (names, none)) ∧
        names.elems = items.map (·.Name) ∧ (items = [] → names = GoSlice.nil)) ∧
    (∀ (items : List ObjectAttrs) (fuel : Nat),
      yieldsThen sdk.objectsNext (sdk.objects bucketName w) items Err.done →
      items.length < fuel →
      ∃ names, (listObjects sdk fuel bucketName w).val
          = some (Completion.returned (names, none)) ∧
        names.elems = items.map (·.Name) ∧ (items = [] → names = GoSlice.nil)) := by
  constructor
  · intro items fuel hy hf
    have hrun := ListBucketsLoop_yields sdk items Err.done fuel _ GoSlice.nil
      [Event.call (.buckets projectId) none] hy hf
    refine ⟨(items.map (·.Name)).foldl goAppend GoSlice.nil, ?_, ?_, ?_⟩
    · unfold ListBuckets
      rw [hrun]
      simp
    · exact (goAppend_foldl_elems _ _).trans (by simp [GoSlice.elems])
    · rintro rfl
      rfl
  · intro items fuel hy hf
    have hrun := listObjectsLoop_yields_done sdk bucketName items fuel _ GoSlice.nil
      [Event.call (.objects bucketName) none] hy hf
    refine ⟨(items.map (·.Name)).foldl goAppend GoSlice.nil, ?_, ?_, ?_⟩
    · unfold listObjects
      rw [hrun]
    · exact (goAppend_foldl_elems _ _).trans (by simp [GoSlice.elems])
    · rintro rfl
      rfl

theorem listing_until_done_witness :
    (yieldsThen memSDK.bucketsNext (memSDK.buckets "proj" shelf)
        [⟨"photos", "EU"⟩, ⟨"logs", "US"⟩] Err.done ∧
      [(⟨"photos", "EU"⟩ : BucketAttrs), ⟨"logs", "US"⟩].length < 3 ∧
      ∃ names, (ListBuckets memSDK 3 "proj" shelf).val
          = some (Completion.returned (names, none)) ∧
        names.elems = [(⟨"photos", "EU"⟩ : BucketAttrs), ⟨"logs", "US"⟩].map (·.Name) ∧
        ([(⟨"photos", "EU"⟩ : BucketAttrs), ⟨"logs", "US"⟩] = [] → names = GoSlice.nil)) ∧
    (yieldsThen memSDK.objectsNext (memSDK.objects "photos" shelf)
        [⟨"photos", "cat", 3⟩, ⟨"photos", "dog", 0⟩] Err.done ∧
      [(⟨"photos", "cat", 3⟩ : ObjectAttrs), ⟨"photos", "dog", 0⟩].length < 3 ∧
      ∃ names, (listObjects memSDK 3 "photos" shelf).val
          = some (Completion.returned (names, none)) ∧
        names.elems
          = [(⟨"photos", "cat", 3⟩ : ObjectAttrs), ⟨"photos", "dog", 0⟩].map (·.Name) ∧
        ([(⟨"photos", "cat", 3⟩ : ObjectAttrs), ⟨"photos", "dog", 0⟩] = [] →
          names = GoSlice.nil)) ∧
    (yieldsThen memSDK.objectsNext (memSDK.objects "logs" shelf) [] Err.done ∧
      ([] : List ObjectAttrs).length < 1 ∧
      ∃ names, (listObjects memSDK 1 "logs" shelf).val
          = some (Completion.returned (names, none)) ∧
        names.elems = ([] : List ObjectAttrs).map (·.Name) ∧
        (([] : List ObjectAttrs) = [] → names = GoSlice.nil)) :=
  ⟨⟨by decide, by decide,
    (listing_until_done memSDK "proj" "photos" shelf).1 _ 3 (by decide) (by decide)⟩,
   ⟨by decide, by decide,
    (listing_until_done memSDK "proj" "photos" shelf).2 _ 3 (by decide) (by decide)⟩,
   ⟨by decide, by decide,
    (listing_until_done memSDK "proj" "logs" shelf).2 _ 1 (by decide) (by decide)⟩⟩

theorem afterNext_objects_stuck (s : Script) (hitems : s.objectItems = []) :
    ∀ n : Nat, afterNext scriptSDK.objectsNext n s = s := by
  intro n
  induction n with
  | zero => rfl
  | succ n ih =>
    simp only [afterNext]
    have hs : (scriptSDK.objectsNext s).2 = s := by simp [scriptSDK, hitems]
    rw [hs, ih]

theorem afterNext_buckets_stuck (s : Script) (hitems : s.bucketItems = []) :
    ∀ n : Nat, afterNext scriptSDK.bucketsNext n s = s := by
  intro n
  induction n with
  | zero => rfl
  | succ n ih =>
    simp only [afterNext]
    have hs : (scriptSDK.bucketsNext s).2 = s := by simp [scriptSDK, hitems]
    rw [hs, ih]

/-- C5. On the script `stuck` both iterators yield no item and return the same
error, which is not Done, on every call of `Next`. Neither listing returns:
whatever the bound, ListBuckets and listObjects make one call of `Next`, log at
fatal severity and the process ends with exit code 1 (storage.go lines 56 and
152). -/
theorem listing_error_ends_process :
    (∀ n : Nat, (scriptSDK.bucketsNext
        (afterNext scriptSDK.bucketsNext n (scriptSDK.buckets "proj" stuck))).1
      = Outcome.fail (Err.other 5)) ∧
    (∀ n : Nat, (scriptSDK.objectsNext
        (afterNext scriptSDK.objectsNext n (scriptSDK.objects "photos" stuck))).1
      = Outcome.fail (Err.other 5)) ∧
    (∀ fuel : Nat,
      (ListBuckets scriptSDK (fuel + 1) "proj" stuck).val = some (Completion.exited 1) ∧
      loggedFatal (ListBuckets scriptSDK (fuel + 1) "proj" stuck).events = true ∧
      callsOf (ListBuckets scriptSDK (fuel + 1) "proj" stuck).events
        = [Call.buckets "proj", Call.bucketsNext]) ∧
    (∀ fuel : Nat,
      (listObjects scriptSDK (fuel + 1) "photos" stuck).val = some (Completion.exited 1) ∧
      loggedFatal (listObjects scriptSDK (fuel + 1) "photos" stuck).events = true ∧
      callsOf (listObjects scriptSDK (fuel + 1) "photos" stuck).events
        = [Call.objects "photos", Call.objectsNext]) := by
  refine ⟨fun n => ?_, fun n => ?_, fun fuel => ⟨rfl, rfl, rfl⟩, fun fuel => ⟨rfl, rfl, rfl⟩⟩
  · have h := afterNext_buckets_stuck stuck rfl n
    simp only [scriptSDK] at h ⊢
    rw [h]
    rfl
  · have h := afterNext_objects_stuck stuck rfl n
    simp only [scriptSDK] at h ⊢
    rw [h]
    rfl

/-- C10. On the script `broken` the bucket iterator yields two buckets and then
an error other than Done. ListBuckets makes exactly three calls of `Next` and no
more, logs at fatal severity and the process ends with exit code 1 (storage.go
line 56): neither the error nor the two names are returned, whatever the
bound. -/
theorem ListBuckets_error_ends_process :
    yieldsThen scriptSDK.bucketsNext (scriptSDK.buckets "proj" broken)
      [⟨"photos", "EU"⟩, ⟨"logs", "US"⟩] (Err.other 5) ∧
    (∀ fuel : Nat,
      (ListBuckets scriptSDK (fuel + 3) "proj" broken).val = some (Completion.exited 1) ∧
      loggedFatal (ListBuckets scriptSDK (fuel + 3) "proj" broken).events = true ∧
      callsOf (ListBuckets scriptSDK (fuel + 3) "proj" broken).events
        = [Call.buckets "proj", Call.bucketsNext, Call.bucketsNext, Call.bucketsNext]) := by
  refine ⟨by decide, fun fuel => ⟨rfl, rfl, rfl⟩⟩

/-! ## Upload followed by read -/

/-- The in-memory store meets the contract of an object store. -/
theorem memSDK_objectStore : ObjectStore memSDK memView where
  attrs_files := by intro b w; rfl
  newWriter_files := by intro b k w; rfl
  newWriter_pending := by intro b k w; rfl
  osReadFile_ok := by
    intro p w body h
    simp only [memSDK] at h
    simp only [memView]
    cases hl : w.files.lookup p with
    | none => simp [hl] at h
    | some x => simp [hl] at h; simp [h]
  osReadFile_pending := by
    intro p w
    simp only [memSDK, memView]
    cases hl : w.files.lookup p <;> rfl
  ioCopy_pending := by
    intro body w b k buf hp _
    simp only [memView] at hp
    simp only [memSDK, memView, hp]
  writerClose_stored := by
    intro w b k buf hp hok
    simp only [memView] at hp
    simp only [memSDK, hp] at hok ⊢
    by_cases hb : w.hasBucket b = true
    · rw [if_pos hb]
      simp only [memView, MemWorld.hasBucket] at hb ⊢
      simp [hb]
    · simp [hb] at hok
  newReader_ok := by
    intro w b k buf hs
    simp only [memView] at hs
    by_cases hb : w.hasBucket b = true
    · simp only [hb, if_true] at hs
      simp [memSDK, hb, hs]
    · simp [hb] at hs

/-- C3. Round trip on a store that meets the object-store contract: if the
local file holds the bytes b and UploadLocalFile returns no error, then ReadFile
of the same bucket and key in the world the upload left returns no error and a
slice equal to b, of the same length (the empty file included). -/
theorem upload_then_read {σ : Type} (sdk : SDK σ) (view : StoreView σ)
    (hstore : ObjectStore sdk view) (bucketName localFilePath KeyName : String) (w : σ)
    (b : List Byte)
    (hfile : view.fileContent w localFilePath = some b)
    (hup : (UploadLocalFile sdk bucketName localFilePath KeyName w).val
      = Completion.returned none) :
    ∃ bytes : GoSlice Byte,
      (ReadFile sdk bucketName KeyName
          (UploadLocalFile sdk bucketName localFilePath KeyName w).world).val
        = Completion.returned (bytes, none) ∧
      bytes = GoSlice.of b ∧ bytes.elems.length = b.length := by
  refine ⟨GoSlice.of b, ?_, rfl, rfl⟩
  have hA := hstore.attrs_files bucketName w
  have hW := hstore.newWriter_files bucketName KeyName (sdk.bucketAttrs bucketName w).2
  have hP := hstore.newWriter_pending bucketName KeyName (sdk.bucketAttrs bucketName w).2
  have hR := hstore.osReadFile_ok localFilePath
    (sdk.newWriter bucketName KeyName (sdk.bucketAttrs bucketName w).2)
  have hRP := hstore.osReadFile_pending localFilePath
    (sdk.newWriter bucketName KeyName (sdk.bucketAttrs bucketName w).2)
  unfold UploadLocalFile at hup ⊢
  rcases h1 : sdk.bucketAttrs bucketName w with ⟨o1, w1⟩
  rw [h1] at hup hA hW hP hR hRP
  simp only at hup hA hW hP hR hRP ⊢
  cases o1 with
  | some e1 =>
    by_cases hx : e1 = Err.bucketNotExist <;> simp [hx] at hup
  | none =>
    simp only at hup ⊢
    rcases h3 : sdk.osReadFile localFilePath (sdk.newWriter bucketName KeyName w1) with ⟨o3, w3⟩
    rw [h3] at hup hR hRP
    simp only at hup hR hRP ⊢
    cases o3 with
    | fail e3 => simp at hup
    | ok body =>
      have hbody : body = b := by
        have := hR body rfl
        rw [hW, hA, hfile] at this
        exact (Option.some.inj this).symm
      subst hbody
      rw [hP] at hRP
      have hC := hstore.ioCopy_pending body w3 bucketName KeyName [] hRP
      simp only at hup ⊢
      rcases h4 : sdk.ioCopy body w3 with ⟨o4, w4⟩
      rw [h4] at hup hC
      simp only at hup hC ⊢
      cases o4 with
      | some e4 => simp at hup
      | none =>
        have hC2 := hC rfl
        simp only [List.nil_append] at hC2
        have hS := hstore.writerClose_stored w4 bucketName KeyName body hC2
        simp only at hup ⊢
        rcases h5 : sdk.writerClose w4 with ⟨o5, w5⟩
        rw [h5] at hup hS
        simp only at hup hS ⊢
        cases o5 with
        | some e5 => simp at hup
        | none =>
          have hN := hstore.newReader_ok w5 bucketName KeyName body (hS rfl)
          simp only
          unfold ReadFile
          rcases h6 : sdk.newReader bucketName KeyName w5 with ⟨o6, w6⟩
          rw [h6] at hN
          simp only at hN ⊢
          obtain ⟨hN1, hN2⟩ := hN
          subst hN1
          rcases h7 : sdk.ioReadAll w6 with ⟨o7, w7⟩
          rw [h7] at hN2
          simp only at hN2 ⊢
          subst hN2
          simp [h7]

theorem upload_then_read_witness :
    ObjectStore memSDK memView ∧
    memView.fileContent demo "cat.jpg" = some [7, 0, 255] ∧
    (UploadLocalFile memSDK "photos" "cat.jpg" "cat" demo).val = Completion.returned none ∧
    ∃ bytes : GoSlice Byte,
      (ReadFile memSDK "photos" "cat"
          (UploadLocalFile memSDK "photos" "cat.jpg" "cat" demo).world).val
        = Completion.returned (bytes, none) ∧
      bytes = GoSlice.of [7, 0, 255] ∧ bytes.elems.length = ([7, 0, 255] : List Byte).length :=
  ⟨memSDK_objectStore, by decide, by decide,
   upload_then_read memSDK memView memSDK_objectStore "photos" "cat.jpg" "cat" demo [7, 0, 255]
     (by decide) (by decide)⟩

/-! ## Failure paths -/

theorem loggedFatal_append (a b : List Event) :
    loggedFatal (a ++ b) = (loggedFatal a || loggedFatal b) := by
  induction a with
  | nil => rfl
  | cons x rest ih =>
    cases x with
    | call c o => simp [loggedFatal, ih]
    | log l f args => cases l <;> simp [loggedFatal, ih]

theorem CreateBucket_failure {σ : Type} (sdk : SDK σ) (projectId bucketName : String)
    (bktAttrs : Option BucketAttrs) (w : σ) (c : Call) (e : Err)
    (hmet : Event.call c (some e) ∈ (CreateBucket sdk projectId bucketName bktAttrs w).events)
    (htol : (Invocation.createBucket projectId bucketName bktAttrs).tolerates c e = false) :
    loggedFatal (CreateBucket sdk projectId bucketName bktAttrs w).events
      = !(Invocation.createBucket projectId bucketName bktAttrs).silent c e ∧
    ((Invocation.createBucket projectId bucketName bktAttrs).silent c e = true →
      (CreateBucket sdk projectId bucketName bktAttrs w).val = Completion.returned (some e)) := by
  unfold CreateBucket at hmet ⊢
  generalize sdk.bucketAttrs bucketName w = p at hmet ⊢
  obtain ⟨o, w1⟩ := p
  cases o with
  | none => simp at hmet
  | some e1 =>
    by_cases hx : e1 = Err.bucketNotExist
    · subst hx
      simp only [if_true] at hmet ⊢
      generalize sdk.bucketCreate bucketName projectId bktAttrs w1 = q at hmet ⊢
      obtain ⟨o2, w2⟩ := q
      cases o2 with
      | none =>
        simp at hmet
        obtain ⟨rfl, rfl⟩ := hmet
        simp [Invocation.tolerates] at htol
      | some e2 =>
        simp at hmet
        rcases hmet with ⟨rfl, rfl⟩ | ⟨rfl, rfl⟩
        · simp [Invocation.tolerates] at htol
        · simp [Invocation.silent, loggedFatal]
    · simp [hx] at hmet ⊢
      obtain ⟨rfl, rfl⟩ := hmet
      simp [Invocation.silent, loggedFatal]

theorem DeleteBucket_failure {σ : Type} (sdk : SDK σ) (bucketName : String) (w : σ)
    (c : Call) (e : Err)
    (hmet : Event.call c (some e) ∈ (DeleteBucket sdk bucketName w).events) :
    loggedFatal (DeleteBucket sdk bucketName w).events
      = !(Invocation.deleteBucket bucketName).silent c e ∧
    ((Invocation.deleteBucket bucketName).silent c e = true →
      (DeleteBucket sdk bucketName w).val = Completion.returned (some e)) := by
  unfold DeleteBucket at hmet ⊢
  generalize sdk.bucketAttrs bucketName w = p at hmet ⊢
  obtain ⟨o, w1⟩ := p
  cases o with
  | some e1 =>
    by_cases hx : e1 = Err.bucketNotExist
    · subst hx
      simp at hmet ⊢
      obtain ⟨rfl, rfl⟩ := hmet
      simp [Invocation.silent, loggedFatal]
    · simp [hx] at hmet ⊢
      obtain ⟨rfl, rfl⟩ := hmet
      simp [Invocation.silent, loggedFatal, hx]
  | none =>
    simp only at hmet ⊢
    generalize sdk.bucketDelete bucketName w1 = q at hmet ⊢
    obtain ⟨o2, w2⟩ := q
    cases o2 with
    | none => simp at hmet
    | some e2 =>
      simp at hmet ⊢
      obtain ⟨rfl, rfl⟩ := hmet
      simp [Invocation.silent, loggedFatal]

theorem UploadLocalFile_failure {σ : Type} (sdk : SDK σ)
    (bucketName localFilePath KeyName : String) (w : σ) (c : Call) (e : Err)
    (hmet : Event.call c (some e)
      ∈ (UploadLocalFile sdk bucketName localFilePath KeyName w).events) :
    loggedFatal (UploadLocalFile sdk bucketName localFilePath KeyName w).events = true := by
  unfold UploadLocalFile at hmet ⊢
  generalize sdk.bucketAttrs bucketName w = p at hmet ⊢
  obtain ⟨o, w1⟩ := p
  cases o with
  | some e1 =>
    by_cases hx : e1 = Err.bucketNotExist
    · subst hx
      simp [loggedFatal]
    · simp [hx, loggedFatal]
  | none =>
    simp only at hmet ⊢
    generalize sdk.osReadFile localFilePath (sdk.newWriter bucketName KeyName w1) = q at hmet ⊢
    obtain ⟨o3, w3⟩ := q
    cases o3 with
    | fail e3 => simp [loggedFatal]
    | ok body =>
      simp only at hmet ⊢
      generalize sdk.ioCopy body w3 = q4 at hmet ⊢
      obtain ⟨o4, w4⟩ := q4
      cases o4 with
      | some e4 => simp [loggedFatal]
      | none =>
        simp only at hmet ⊢
        generalize sdk.writerClose w4 = q5 at hmet ⊢
        obtain ⟨o5, w5⟩ := q5
        cases o5 with
        | some e5 => simp [loggedFatal]
        | none => simp at hmet

theorem ReadFile_failure {σ : Type} (sdk : SDK σ) (bucketName objectName : String) (w : σ)
    (c : Call) (e : Err)
    (hmet : Event.call c (some e) ∈ (ReadFile sdk bucketName objectName w).events)
    (htol : (Invocation.readFile bucketName objectName).tolerates c e = false) :
    loggedFatal (ReadFile sdk bucketName objectName w).events = true := by
  unfold ReadFile at hmet ⊢
  generalize sdk.newReader bucketName objectName w = p at hmet ⊢
  obtain ⟨o, w1⟩ := p
  cases o with
  | some e1 =>
    by_cases hx : e1 = Err.objectNotExist
    · subst hx
      simp [loggedFatal]
    · simp [hx, loggedFatal]
  | none =>
    simp only at hmet ⊢
    generalize sdk.ioReadAll w1 = q at hmet ⊢
    obtain ⟨o2, w2⟩ := q
    cases o2 with
    | fail e2 => simp [loggedFatal]
    | ok body =>
      simp at hmet
      obtain ⟨rfl, _⟩ := hmet
      simp [Invocation.tolerates] at htol

/-- Loop of ListBuckets: a call that returned an error is a call of `Next`,
and if that error is not `Done` a fatal entry has been logged. -/
theorem ListBucketsLoop_failure {σ : Type} (sdk : SDK σ) :
    ∀ (fuel : Nat) (w : σ) (names : GoSlice String) (evs : List Event),
      (∀ c e, Event.call c (some e) ∉ evs) →
      ∀ c e, Event.call c (some e) ∈ (ListBucketsLoop sdk fuel w names evs).events →
        c = Call.bucketsNext ∧
        (e ≠ Err.done → loggedFatal (ListBucketsLoop sdk fuel w names evs).events = true) := by
  intro fuel
  induction fuel with
  | zero =>
    intro w names evs hclean c e hmet
    simp only [ListBucketsLoop] at hmet
    exact absurd hmet (hclean c e)
  | succ n ih =>
    intro w names evs hclean c e hmet
    simp only [ListBucketsLoop] at hmet ⊢
    generalize sdk.bucketsNext w = p at hmet ⊢
    obtain ⟨o, w1⟩ := p
    cases o with
    | ok a =>
      simp only at hmet ⊢
      refine ih _ _ _ ?_ c e hmet
      intro c2 e2 hm
      simp at hm
      exact hclean c2 e2 hm
    | fail e1 =>
      by_cases hd : e1 = Err.done
      · simp [hd] at hmet ⊢
        rcases hmet with hm | ⟨rfl, rfl⟩
        · exact absurd hm (hclean c e)
        · simp
      · simp [hd] at hmet ⊢
        rcases hmet with hm | ⟨rfl, rfl⟩
        · exact absurd hm (hclean c e)
        · simp [loggedFatal_append, loggedFatal]

/-- Loop of listObjects: a call that returned an error is a call of `Next`,
and if that error is not `Done` a fatal entry has been logged. -/
theorem listObjectsLoop_failure {σ : Type} (sdk : SDK σ) (bucketName : String) :
    ∀ (fuel : Nat) (w : σ) (names : GoSlice String) (evs : List Event),
      (∀ c e, Event.call c (some e) ∉ evs) →
      ∀ c e, Event.call c (some e) ∈ (listObjectsLoop sdk bucketName fuel w names evs).events →
        c = Call.objectsNext ∧
        (e ≠ Err.done →
          loggedFatal (listObjectsLoop sdk bucketName fuel w names evs).events = true) := by
  intro fuel
  induction fuel with
  | zero =>
    intro w names evs hclean c e hmet
    simp only [listObjectsLoop] at hmet
    exact absurd hmet (hclean c e)
  | succ n ih =>
    intro w names evs hclean c e hmet
    simp only [listObjectsLoop] at hmet ⊢
    generalize sdk.objectsNext w = p at hmet ⊢
    obtain ⟨o, w1⟩ := p
    cases o with
    | ok a =>
      simp only at hmet ⊢
      refine ih _ _ _ ?_ c e hmet
      intro c2 e2 hm
      simp at hm
      exact hclean c2 e2 hm
    | fail e1 =>
      by_cases hd : e1 = Err.done
      · simp [hd] at hmet ⊢
        rcases hmet with hm | ⟨rfl, rfl⟩
        · exact absurd hm (hclean c e)
        · simp
      · simp [hd] at hmet ⊢
        rcases hmet with hm | ⟨rfl, rfl⟩
        · exact absurd hm (hclean c e)
        · simp [loggedFatal_append, loggedFatal]

/-- C6, the claim as stated fails. ReadFile returns the bytes and a nil error
although the Close of its reader returned an error. And UploadLocalFile, whose
file read returned an error that is neither not-found nor Done, does not return
it: after the fatal entry the process ends with exit code 1. -/
theorem call_errors_not_returned :
    (Event.call Call.readerClose (some (Err.other 9))
        ∈ (ReadFile scriptSDK "photos" "cat" leaky).events ∧
      (ReadFile scriptSDK "photos" "cat" leaky).val
        = Completion.returned (GoSlice.of [1, 2, 3], none)) ∧
    (Event.call (Call.osReadFile "dog.jpg") (some (Err.other 2))
        ∈ (UploadLocalFile memSDK "photos" "dog.jpg" "dog" demo).events ∧
      (UploadLocalFile memSDK "photos" "dog.jpg" "dog" demo).val = Completion.exited 1) := by
  decide

/-- C6 as amended. On the paths that end in a plain return of the error, the
error is the result of the helper: an error other than ErrBucketNotExist
returned by the probe is returned by CreateBucket and by DeleteBucket, and an
error returned by the delete request is returned by DeleteBucket. The error
result of the deferred Close of the reader is dropped: when the reader opens
and is read without error, ReadFile returns the bytes and a nil error. -/
theorem unlogged_errors_are_returned {σ : Type} (sdk : SDK σ)
    (projectId bucketName readBucket objectName : String) (bktAttrs : Option BucketAttrs)
    (w : σ) :
    (∀ e, (sdk.bucketAttrs bucketName w).1 = some e → e ≠ Err.bucketNotExist →
      (CreateBucket sdk projectId bucketName bktAttrs w).val = Completion.returned (some e) ∧
      (DeleteBucket sdk bucketName w).val = Completion.returned (some e)) ∧
    (∀ e, (sdk.bucketAttrs bucketName w).1 = none →
      (sdk.bucketDelete bucketName (sdk.bucketAttrs bucketName w).2).1 = some e →
      (DeleteBucket sdk bucketName w).val = Completion.returned (some e)) ∧
    (∀ body, (sdk.newReader readBucket objectName w).1 = none →
      (sdk.ioReadAll (sdk.newReader readBucket objectName w).2).1 = Outcome.ok body →
      (ReadFile sdk readBucket objectName w).val
        = Completion.returned (GoSlice.of body, none)) := by
  refine ⟨fun e hprobe hne => ?_, fun e hprobe hdel => ?_, fun body hopen hread => ?_⟩
  · unfold CreateBucket DeleteBucket
    generalize sdk.bucketAttrs bucketName w = p at hprobe ⊢
    obtain ⟨o, w1⟩ := p
    simp only at hprobe
    subst hprobe
    simp [hne]
  · unfold DeleteBucket
    generalize sdk.bucketAttrs bucketName w = p at hprobe hdel ⊢
    obtain ⟨o, w1⟩ := p
    simp only at hprobe hdel
    subst hprobe
    simp only
    generalize sdk.bucketDelete bucketName w1 = q at hdel ⊢
    obtain ⟨o2, w2⟩ := q
    simp only at hdel
    subst hdel
    rfl
  · unfold ReadFile
    generalize sdk.newReader readBucket objectName w = p at hopen hread ⊢
    obtain ⟨o, w1⟩ := p
    simp only at hopen hread
    subst hopen
    simp only
    generalize sdk.ioReadAll w1 = q at hread ⊢
    obtain ⟨o2, w2⟩ := q
    simp only at hread
    subst hread
    rfl

theorem unlogged_errors_are_returned_witness :
    ((scriptSDK.bucketAttrs "photos" denied).1 = some (Err.other 403) ∧
      Err.other 403 ≠ Err.bucketNotExist ∧
      (CreateBucket scriptSDK "proj" "photos" none denied).val
        = Completion.returned (some (Err.other 403)) ∧
      (DeleteBucket scriptSDK "photos" denied).val
        = Completion.returned (some (Err.other 403))) ∧
    ((scriptSDK.bucketAttrs "photos" refused).1 = none ∧
      (scriptSDK.bucketDelete "photos" (scriptSDK.bucketAttrs "photos" refused).2).1
        = some (Err.other 409) ∧
      (DeleteBucket scriptSDK "photos" refused).val
        = Completion.returned (some (Err.other 409))) ∧
    ((scriptSDK.newReader "photos" "cat" leaky).1 = none ∧
      (scriptSDK.ioReadAll (scriptSDK.newReader "photos" "cat" leaky).2).1
        = Outcome.ok [1, 2, 3] ∧
      (scriptSDK.readerClose (scriptSDK.ioReadAll
        (scriptSDK.newReader "photos" "cat" leaky).2).2).1 = some (Err.other 9) ∧
      (ReadFile scriptSDK "photos" "cat" leaky).val
        = Completion.returned (GoSlice.of [1, 2, 3], none)) :=
  ⟨⟨by decide, by decide,
    (unlogged_errors_are_returned scriptSDK "proj" "photos" "photos" "cat" none denied).1
      (Err.other 403) (by decide) (by decide)⟩,
   ⟨by decide, by decide,
    (unlogged_errors_are_returned scriptSDK "proj" "photos" "photos" "cat" none refused).2.1
      (Err.other 409) (by decide) (by decide)⟩,
   ⟨by decide, by decide, by decide,
    (unlogged_errors_are_returned scriptSDK "proj" "photos" "photos" "cat" none leaky).2.2
      [1, 2, 3] (by decide) (by decide)⟩⟩

/-- C8, the claim as stated fails. CreateBucket whose probe is refused, and
DeleteBucket whose probe is refused or whose delete request fails, return the
error without any entry at fatal severity; ReadFile, whose reader fails while
being read, logs at fatal severity and does not return the error: the process
ends with exit code 1. -/
theorem fatal_entry_or_return_missing :
    ((scriptSDK.bucketAttrs "photos" denied).1 = some (Err.other 403) ∧
      (CreateBucket scriptSDK "proj" "photos" none denied).val
        = Completion.returned (some (Err.other 403)) ∧
      loggedFatal (CreateBucket scriptSDK "proj" "photos" none denied).events = false) ∧
    ((DeleteBucket scriptSDK "photos" denied).val = Completion.returned (some (Err.other 403)) ∧
      loggedFatal (DeleteBucket scriptSDK "photos" denied).events = false) ∧
    ((scriptSDK.bucketDelete "photos" refused).1 = some (Err.other 409) ∧
      (DeleteBucket scriptSDK "photos" refused).val
        = Completion.returned (some (Err.other 409)) ∧
      loggedFatal (DeleteBucket scriptSDK "photos" refused).events = false) ∧
    (Event.call Call.ioReadAll (some (Err.other 7))
        ∈ (ReadFile scriptSDK "photos" "cat" torn).events ∧
      (ReadFile scriptSDK "photos" "cat" torn).val = Completion.exited 1 ∧
      loggedFatal (ReadFile scriptSDK "photos" "cat" torn).events = true) := by
  decide

/-- C8 as amended. On every path on which one of the six helpers meets an
error (an error result of a call it makes that it does not tolerate), an entry
at fatal severity is logged, except on the three silent paths (probe error in
CreateBucket, probe error other than not-found in DeleteBucket, delete error in
DeleteBucket): there no fatal entry is logged and the helper returns that
error to its caller. -/
theorem failure_logs_or_returns {σ : Type} (sdk : SDK σ) (w : σ) (inv : Invocation)
    (c : Call) (e : Err)
    (hmet : Event.call c (some e) ∈ (inv.run sdk w).2)
    (htol : inv.tolerates c e = false) :
    loggedFatal (inv.run sdk w).2 = !(inv.silent c e) ∧
    (inv.silent c e = true → (inv.run sdk w).1 = some (Completion.returned (some e))) := by
  cases inv with
  | createBucket p b a =>
    simp only [Invocation.run] at hmet ⊢
    obtain ⟨hl, hv⟩ := CreateBucket_failure sdk p b a w c e hmet htol
    exact ⟨hl, fun hs => by rw [hv hs]⟩
  | listBuckets fuel p =>
    simp only [Invocation.run] at hmet ⊢
    obtain ⟨hc, hrest⟩ := ListBucketsLoop_failure sdk fuel _ _ _
      (by intro c2 e2 hm; simp at hm) c e hmet
    subst hc
    have hne : e ≠ Err.done := by
      rintro rfl
      simp [Invocation.tolerates] at htol
    refine ⟨?_, fun hs => by simp [Invocation.silent] at hs⟩
    simp only [Invocation.silent, Bool.not_false]
    exact hrest hne
  | deleteBucket b =>
    simp only [Invocation.run] at hmet ⊢
    obtain ⟨hl, hv⟩ := DeleteBucket_failure sdk b w c e hmet
    exact ⟨hl, fun hs => by rw [hv hs]⟩
  | uploadLocalFile b f k =>
    simp only [Invocation.run] at hmet ⊢
    refine ⟨?_, fun hs => by simp [Invocation.silent] at hs⟩
    simp only [Invocation.silent, Bool.not_false]
    exact UploadLocalFile_failure sdk b f k w c e hmet
  | readFile b o =>
    simp only [Invocation.run] at hmet ⊢
    refine ⟨?_, fun hs => by simp [Invocation.silent] at hs⟩
    simp only [Invocation.silent, Bool.not_false]
    exact ReadFile_failure sdk b o w c e hmet htol
  | listObjects fuel b =>
    simp only [Invocation.run] at hmet ⊢
    obtain ⟨hc, hrest⟩ := listObjectsLoop_failure sdk b fuel _ _ _
      (by intro c2 e2 hm; simp at hm) c e hmet
    subst hc
    have hne : e ≠ Err.done := by
      rintro rfl
      simp [Invocation.tolerates] at htol
    refine ⟨?_, fun hs => by simp [Invocation.silent] at hs⟩
    simp only [Invocation.silent, Bool.not_false]
    exact hrest hne

theorem failure_logs_or_returns_witness :
    (Event.call (Call.bucketDelete "photos") (some (Err.other 409))
        ∈ ((Invocation.deleteBucket "photos").run scriptSDK refused).2 ∧
      (Invocation.deleteBucket "photos").tolerates (Call.bucketDelete "photos") (Err.other 409)
        = false ∧
      (Invocation.deleteBucket "photos").silent (Call.bucketDelete "photos") (Err.other 409)
        = true ∧
      loggedFatal ((Invocation.deleteBucket "photos").run scriptSDK refused).2
        = !((Invocation.deleteBucket "photos").silent (Call.bucketDelete "photos")
            (Err.other 409)) ∧
      ((Invocation.deleteBucket "photos").run scriptSDK refused).1
        = some (Completion.returned (some (Err.other 409)))) ∧
    (Event.call Call.objectsNext (some (Err.other 5))
        ∈ ((Invocation.listObjects 3 "photos").run scriptSDK stuck).2 ∧
      (Invocation.listObjects 3 "photos").tolerates Call.objectsNext (Err.other 5) = false ∧
      loggedFatal ((Invocation.listObjects 3 "photos").run scriptSDK stuck).2
        = !((Invocation.listObjects 3 "photos").silent Call.objectsNext (Err.other 5))) :=
  ⟨⟨by decide, by decide, by decide,
    (failure_logs_or_returns scriptSDK refused (Invocation.deleteBucket "photos")
      (Call.bucketDelete "photos") (Err.other 409) (by decide) (by decide)).1,
    (failure_logs_or_returns scriptSDK refused (Invocation.deleteBucket "photos")
      (Call.bucketDelete "photos") (Err.other 409) (by decide) (by decide)).2 (by decide)⟩,
   ⟨by decide, by decide,
    (failure_logs_or_returns scriptSDK stuck (Invocation.listObjects 3 "photos")
      Call.objectsNext (Err.other 5) (by decide) (by decide)).1⟩⟩

end Storage
